import Mathlib

/-!
Verification of the baa-middleware/cors CORS middleware (cors.go).

The Go source is shallowly embedded below: the configuration struct,
the per-request decision pipeline produced by `Cors`, and the three
matchers (`matchOrigin`, `validateRequestMethod`,
`validateRequestHeaders`).  Response headers are modelled as an
association list with `Add` (append) and `Set` (replace) mirroring Go's
`http.Header`; the chain-control primitives `c.Next()` / `c.Break()`
become the `Outcome` type.
-/

namespace Cors

/-- Embeds Go `strings.Split(s, ",")`: split on every occurrence of the
single-character separator `','`, scanning left to right. -/
def splitComma : List Char → List (List Char)
  | [] => [[]]
  | c :: cs =>
    if c == ',' then [] :: splitComma cs
    else
      match splitComma cs with
      | [] => [[c]]
      | t :: ts => (c :: t) :: ts

/-- Embeds Go `strings.Split(s, ", ")`: split on every occurrence of the
two-character separator `", "`, scanning left to right, non-overlapping. -/
def splitCommaSpace : List Char → List (List Char)
  | [] => [[]]
  | [c] => [[c]]
  | c :: c' :: cs =>
    if c == ',' && c' == ' ' then [] :: splitCommaSpace cs
    else
      match splitCommaSpace (c' :: cs) with
      | [] => [[c]]
      | t :: ts => (c :: t) :: ts

/-- Go `strings.Split(s, ",")` at the `String` level. -/
def stringsSplitComma (s : String) : List String :=
  (splitComma s.data).map String.mk

/-- Go `strings.Split(s, ", ")` at the `String` level. -/
def stringsSplitCommaSpace (s : String) : List String :=
  (splitCommaSpace s.data).map String.mk

/-- The cutset of Go `strings.Trim(header, " \t\r\n")` in
`validateRequestHeaders`. -/
def isCutsetWS (c : Char) : Bool :=
  c == ' ' || c == '\t' || c == '\r' || c == '\n'

/-- Embeds Go `strings.Trim(s, " \t\r\n")`: drop leading and trailing
characters belonging to the cutset. -/
def stringsTrimWS (s : String) : String :=
  String.mk (((s.data.dropWhile isCutsetWS).reverse.dropWhile isCutsetWS).reverse)

/-- Embeds Go `strings.ToLower` on the ASCII range (`Char.toLower` lowers
exactly `A`–`Z`, which is all the source relies on for header names). -/
def stringsToLower (s : String) : String :=
  String.mk (s.data.map Char.toLower)

/- Header-key constants from cors.go. -/

def AllowOriginKey : String := "Access-Control-Allow-Origin"

def AllowCredentialsKey : String := "Access-Control-Allow-Credentials"

def AllowHeadersKey : String := "Access-Control-Allow-Headers"

def AllowMethodsKey : String := "Access-Control-Allow-Methods"

def MaxAgeKey : String := "Access-Control-Max-Age"

def OriginKey : String := "Origin"

def RequestMethodKey : String := "Access-Control-Request-Method"

def RequestHeadersKey : String := "Access-Control-Request-Headers"

def ExposeHeadersKey : String := "Access-Control-Expose-Headers"

def optionsMethod : String := "OPTIONS"

/-- The public configuration fields of `cors.Config`.  `MaxAge` is the
preflight cache lifetime in whole seconds (Go stores a `time.Duration`
and renders it with `fmt.Sprintf("%.f", d.Seconds())`; the claims only
touch the rendered decimal string, so whole seconds suffice). -/
structure Config where
  ValidateHeaders : Bool
  Origins : String
  RequestHeaders : String
  ExposedHeaders : String
  Methods : String
  MaxAge : Nat
  Credentials : Bool
deriving DecidableEq, Repr

/-- The private `config.origins` slice computed by `Config.prepare`:
`strings.Split(config.Origins, ", ")`. -/
def Config.origins (config : Config) : List String :=
  stringsSplitCommaSpace config.Origins

/-- The private `config.methods` slice computed by `Config.prepare`:
`strings.Split(config.Methods, ", ")`. -/
def Config.methods (config : Config) : List String :=
  stringsSplitCommaSpace config.Methods

/-- The private `config.requestHeaders` slice computed by
`Config.prepare`: `strings.Split(config.RequestHeaders, ", ")`, each
entry lower-cased once. -/
def Config.requestHeaders (config : Config) : List String :=
  (stringsSplitCommaSpace config.RequestHeaders).map stringsToLower

/-- The private `config.maxAge` string computed by `Config.prepare`:
the max-age rendered as integer seconds without a decimal point. -/
def Config.maxAgeStr (config : Config) : String :=
  toString config.MaxAge

/-- The private `config.credentials` string computed by
`Config.prepare`: `fmt.Sprintf("%t", config.Credentials)`. -/
def Config.credentialsStr (config : Config) : String :=
  if config.Credentials then "true" else "false"

/-- The per-request facts the middleware reads: the HTTP method and the
values of the `Origin`, `Access-Control-Request-Method` and
`Access-Control-Request-Headers` headers (Go's `Header.Get` returns `""`
when a header is absent). -/
structure Request where
  Method : String
  origin : String
  requestMethod : String
  requestHeaders : String
deriving DecidableEq, Repr

/-- The outgoing response headers, as the ordered multimap built by
`http.Header` operations. -/
structure Response where
  headers : List (String × String)
deriving DecidableEq, Repr

/-- `http.Header.Add`: append a key/value pair. -/
def Response.add (r : Response) (k v : String) : Response :=
  ⟨r.headers ++ [(k, v)]⟩

/-- `http.Header.Set`: replace every value stored under `k` with the
single value `v`. -/
def Response.set (r : Response) (k v : String) : Response :=
  ⟨r.headers.filter (fun p => p.1 != k) ++ [(k, v)]⟩

/-- The values recorded under key `k`. -/
def Response.get (r : Response) (k : String) : List String :=
  (r.headers.filter (fun p => p.1 == k)).map Prod.snd

/-- Chain control: `c.Next()` forwards to downstream handlers,
`c.Break()` terminates the chain. -/
inductive Outcome where
  | next : Outcome
  | breakChain : Outcome
deriving DecidableEq, Repr

/-- `matchOrigin`: case-sensitive match of the origin header against the
configured origins slice. -/
def matchOrigin (origin : String) (config : Config) : Bool :=
  config.origins.any (fun value => value == origin)

/-- `validateRequestMethod`: case-sensitive match of the probed request
method; skipped (always true) when `ValidateHeaders` is off, and an
empty probed method never matches. -/
def validateRequestMethod (requestMethod : String) (config : Config) : Bool :=
  if !config.ValidateHeaders then true
  else
    requestMethod != "" && config.methods.any (fun value => value == requestMethod)

/-- `validateRequestHeaders`: split the probed header list on `","`,
trim each token with cutset `" \t\r\n"`, lower-case it, and require every
token to occur in the prepared lower-case header slice; skipped (always
true) when `ValidateHeaders` is off. -/
def validateRequestHeaders (requestHeaders : String) (config : Config) : Bool :=
  if !config.ValidateHeaders then true
  else
    (stringsSplitComma requestHeaders).all (fun header =>
      config.requestHeaders.any (fun value =>
        value == stringsToLower (stringsTrimWS header)))

/-- `handlePreflight`: validate the probed method and header list; on
success set `Access-Control-Allow-Methods`, `Access-Control-Allow-Headers`
and, when the prepared max-age string is not `"0"`,
`Access-Control-Max-Age`.  Returns the updated response and the
validation verdict.  (In Go the probed header list is read inside this
function; here it is passed in as `requestHeadersVal`.) -/
def handlePreflight (resp : Response) (config : Config)
    (requestMethod : String) (requestHeadersVal : String) : Response × Bool :=
  if validateRequestMethod requestMethod config == false then (resp, false)
  else if validateRequestHeaders requestHeadersVal config == true then
    let resp := resp.set AllowMethodsKey config.Methods
    let resp := resp.set AllowHeadersKey config.RequestHeaders
    let resp :=
      if config.maxAgeStr != "0" then resp.set MaxAgeKey config.maxAgeStr else resp
    (resp, true)
  else (resp, false)

/-- `handleRequest`: surface the configured exposed headers, if any;
always reports success. -/
def handleRequest (resp : Response) (config : Config) : Response × Bool :=
  (if config.ExposedHeaders != "" then
      resp.set ExposeHeadersKey config.ExposedHeaders
    else resp,
   true)

/-- The middleware closure returned by `Cors`: the per-request decision
pipeline of cors.go, with `forceOriginMatch` recomputed from
`config.Origins == "*"` (it is constant, so this is the same value the
Go closure captured at construction). -/
def corsHandle (config : Config) (req : Request) : Response × Outcome :=
  let forceOriginMatch := config.Origins == "*"
  let currentOrigin := req.origin
  let resp := (Response.mk []).add "Vary" OriginKey
  if currentOrigin == "" then (resp, Outcome.next)
  else
    let originMatch :=
      if !forceOriginMatch then matchOrigin currentOrigin config else false
    if !(forceOriginMatch || originMatch) then (resp, Outcome.breakChain)
    else
      if req.Method == optionsMethod && req.requestMethod != "" then
        ((handlePreflight resp config req.requestMethod req.requestHeaders).1,
         Outcome.breakChain)
      else
        let hr := handleRequest resp config
        if !hr.2 then (hr.1, Outcome.breakChain)
        else
          let resp :=
            if config.Credentials then
              (hr.1.set AllowCredentialsKey config.credentialsStr).set
                AllowOriginKey currentOrigin
            else if forceOriginMatch then hr.1.set AllowOriginKey "*"
            else hr.1.set AllowOriginKey currentOrigin
          (resp, Outcome.next)

/-- `Cors`: construction panics (modelled as `none`) when the configured
origin rule is the empty string; otherwise it prepares the configuration
and returns the middleware closure. -/
def Cors (config : Config) : Option (Request → Response × Outcome) :=
  if config.Origins == "" then none
  else some (corsHandle config)

/-! ### Helper lemmas about the response model and the pipeline -/

/-- A stored pair survives a `Set` under a different key. -/
lemma mem_headers_set (r : Response) (k v : String) (p : String × String)
    (hp : p ∈ r.headers) (hk : p.1 ≠ k) : p ∈ (r.set k v).headers := by
  simp [Response.set, List.mem_filter, hp, hk]

/-- The `Vary` pair survives `handlePreflight` (its `Set` keys differ from
`"Vary"`). -/
lemma vary_mem_handlePreflight (resp : Response) (c : Config) (m hv : String)
    (h : ("Vary", OriginKey) ∈ resp.headers) :
    ("Vary", OriginKey) ∈ (handlePreflight resp c m hv).1.headers := by
  unfold handlePreflight
  split
  · exact h
  · split
    · split
      · exact mem_headers_set _ _ _ _
          (mem_headers_set _ _ _ _ (mem_headers_set _ _ _ _ h (by decide)) (by decide))
          (by decide)
      · exact mem_headers_set _ _ _ _ (mem_headers_set _ _ _ _ h (by decide)) (by decide)
    · exact h

/-- The `Vary` pair survives `handleRequest`. -/
lemma vary_mem_handleRequest (resp : Response) (c : Config)
    (h : ("Vary", OriginKey) ∈ resp.headers) :
    ("Vary", OriginKey) ∈ (handleRequest resp c).1.headers := by
  unfold handleRequest
  split
  · exact mem_headers_set _ _ _ _ h (by decide)
  · exact h

/-- Reduction of the pipeline when the origin is rejected: not the
wildcard policy and no configured origin matches. -/
lemma corsHandle_reject_eq (c : Config) (req : Request) (ho : req.origin ≠ "")
    (hw : c.Origins ≠ "*") (hm : matchOrigin req.origin c = false) :
    corsHandle c req = (Response.mk [("Vary", OriginKey)], Outcome.breakChain) := by
  simp [corsHandle, ho, hw, hm, Response.add]

/-- Reduction of the pipeline on an admitted preflight-shaped request. -/
lemma corsHandle_preflight_eq (c : Config) (req : Request) (ho : req.origin ≠ "")
    (hadm : c.Origins = "*" ∨ matchOrigin req.origin c = true)
    (hm : req.Method = "OPTIONS") (hrm : req.requestMethod ≠ "") :
    corsHandle c req =
      ((handlePreflight (Response.mk [("Vary", OriginKey)]) c
          req.requestMethod req.requestHeaders).1,
       Outcome.breakChain) := by
  rcases hadm with hadm | hadm
  · simp [corsHandle, ho, hadm, hm, hrm, optionsMethod, Response.add]
  · by_cases hw : c.Origins = "*"
    · simp [corsHandle, ho, hw, hm, hrm, optionsMethod, Response.add]
    · simp [corsHandle, ho, hw, hadm, hm, hrm, optionsMethod, Response.add]

/-- Reduction of the pipeline on an admitted non-preflight request:
`handleRequest` always succeeds, then the credentials/origin-echo block
runs and the chain continues. -/
lemma corsHandle_simple_eq (c : Config) (req : Request) (ho : req.origin ≠ "")
    (hadm : c.Origins = "*" ∨ matchOrigin req.origin c = true)
    (hnp : ¬(req.Method = "OPTIONS" ∧ req.requestMethod ≠ "")) :
    corsHandle c req =
      (if c.Credentials then
        ((handleRequest (Response.mk [("Vary", OriginKey)]) c).1.set
            AllowCredentialsKey c.credentialsStr).set AllowOriginKey req.origin
      else if c.Origins = "*" then
        (handleRequest (Response.mk [("Vary", OriginKey)]) c).1.set AllowOriginKey "*"
      else
        (handleRequest (Response.mk [("Vary", OriginKey)]) c).1.set
          AllowOriginKey req.origin,
       Outcome.next) := by
  have hnp' : req.Method ≠ "OPTIONS" ∨ req.requestMethod = "" := by
    by_cases h1 : req.Method = "OPTIONS"
    · right
      by_contra h2
      exact hnp ⟨h1, h2⟩
    · left; exact h1
  rcases hadm with hadm | hadm <;> rcases hnp' with hnp' | hnp'
  · simp [corsHandle, ho, hadm, hnp', optionsMethod, handleRequest, Response.add]
  · simp [corsHandle, ho, hadm, hnp', optionsMethod, handleRequest, Response.add]
  · by_cases hw : c.Origins = "*" <;>
      simp [corsHandle, ho, hw, hadm, hnp', optionsMethod, handleRequest, Response.add]
  · by_cases hw : c.Origins = "*" <;>
      simp [corsHandle, ho, hw, hadm, hnp', optionsMethod, handleRequest, Response.add]

/-! ### Concrete configurations and requests used by the witnesses -/

/-- A strict wildcard configuration. -/
def cfgStrictWild : Config :=
  { ValidateHeaders := true, Origins := "*", RequestHeaders := "content-type",
    ExposedHeaders := "", Methods := "GET, PUT", MaxAge := 0, Credentials := false }

/-- A single-origin configuration with strict validation. -/
def cfgSingle : Config :=
  { ValidateHeaders := true, Origins := "http://a.com", RequestHeaders := "x-a",
    ExposedHeaders := "", Methods := "GET", MaxAge := 0, Credentials := false }

/-- A request with no Origin header. -/
def reqNoOrigin : Request :=
  { Method := "GET", origin := "", requestMethod := "", requestHeaders := "" }

/-- A plain cross-origin GET request. -/
def reqGet : Request :=
  { Method := "GET", origin := "http://a.com", requestMethod := "", requestHeaders := "" }

/-! ### Claim theorems -/

/-- C3: every request gets a Vary: Origin header, and a request whose
Origin header is absent (empty) always continues with no other header set. -/
theorem vary_unconditional_and_no_origin_continues (c : Config) (req : Request) :
    ("Vary", OriginKey) ∈ (corsHandle c req).1.headers ∧
    (req.origin = "" →
      corsHandle c req = (Response.mk [("Vary", OriginKey)], Outcome.next)) := by
  constructor
  · by_cases ho : req.origin = ""
    · simp [corsHandle, ho, Response.add]
    · by_cases hadm : c.Origins = "*" ∨ matchOrigin req.origin c = true
      · by_cases hp : req.Method = "OPTIONS" ∧ req.requestMethod ≠ ""
        · rw [corsHandle_preflight_eq c req ho hadm hp.1 hp.2]
          exact vary_mem_handlePreflight _ _ _ _ (by decide)
        · rw [corsHandle_simple_eq c req ho hadm hp]
          have hbase : ("Vary", OriginKey) ∈
              (handleRequest (Response.mk [("Vary", OriginKey)]) c).1.headers :=
            vary_mem_handleRequest _ _ (by decide)
          split
          · exact mem_headers_set _ _ _ _
              (mem_headers_set _ _ _ _ hbase (by decide)) (by decide)
          · split
            · exact mem_headers_set _ _ _ _ hbase (by decide)
            · exact mem_headers_set _ _ _ _ hbase (by decide)
      · push_neg at hadm
        rw [corsHandle_reject_eq c req ho hadm.1 (by simpa using hadm.2)]
        decide
  · intro ho
    simp [corsHandle, ho, Response.add]

/-- C3 witness: concrete no-origin request continues with only Vary set. -/
theorem vary_unconditional_and_no_origin_continues_witness :
    reqNoOrigin.origin = "" ∧
    corsHandle cfgSingle reqNoOrigin = (Response.mk [("Vary", OriginKey)], Outcome.next) :=
  ⟨rfl, (vary_unconditional_and_no_origin_continues cfgSingle reqNoOrigin).2 rfl⟩

/-- C5: in strict mode a non-empty probed method validates iff it equals,
case-sensitively, one entry of the prepared method slice; in non-strict
mode validation always passes. -/
theorem validateRequestMethod_strict_iff (c : Config) (m : String) :
    (c.ValidateHeaders = true → m ≠ "" →
      (validateRequestMethod m c = true ↔ m ∈ c.methods)) ∧
    (c.ValidateHeaders = false → validateRequestMethod m c = true) := by
  constructor
  · intro hv hm
    simp [validateRequestMethod, hv, hm, List.any_eq_true]
  · intro hv
    simp [validateRequestMethod, hv]

/-- C5 witness: probing "get" against configured "GET, PUT" fails in
strict mode (case-sensitive). -/
theorem validateRequestMethod_strict_iff_witness :
    (validateRequestMethod "get" cfgStrictWild = true ↔ "get" ∈ cfgStrictWild.methods) ∧
    ("get" ∈ cfgStrictWild.methods ↔ False) ∧
    ("GET" ∈ cfgStrictWild.methods ↔ True) :=
  ⟨(validateRequestMethod_strict_iff cfgStrictWild "get").1 rfl (by decide),
   by decide, by decide⟩

/-- C6: in strict mode the probed header list validates iff every
comma-separated token, trimmed and lower-cased, occurs in the prepared
lower-case header slice; in non-strict mode validation always passes. -/
theorem validateRequestHeaders_strict_iff (c : Config) (s : String) :
    (c.ValidateHeaders = true →
      (validateRequestHeaders s c = true ↔
        ∀ h ∈ stringsSplitComma s,
          stringsToLower (stringsTrimWS h) ∈ c.requestHeaders)) ∧
    (c.ValidateHeaders = false → validateRequestHeaders s c = true) := by
  constructor
  · intro hv
    simp [validateRequestHeaders, hv, List.all_eq_true, List.any_eq_true]
  · intro hv
    simp [validateRequestHeaders, hv]

/-- C6 witness: probing "Content-Type" against configured "content-type"
succeeds in strict mode (case-insensitive). -/
theorem validateRequestHeaders_strict_iff_witness :
    (validateRequestHeaders "Content-Type" cfgStrictWild = true ↔
      ∀ h ∈ stringsSplitComma "Content-Type",
        stringsToLower (stringsTrimWS h) ∈ cfgStrictWild.requestHeaders) ∧
    validateRequestHeaders "Content-Type" cfgStrictWild = true :=
  ⟨(validateRequestHeaders_strict_iff cfgStrictWild "Content-Type").1 rfl, by decide⟩

/-- C7: an admitted request with non-empty Origin terminates the chain
iff it is preflight-shaped (method OPTIONS with a non-empty probed
method); an OPTIONS request without the probe continues as a simple
request. -/
theorem preflight_classification (c : Config) (req : Request) (ho : req.origin ≠ "")
    (hadm : c.Origins = "*" ∨ matchOrigin req.origin c = true) :
    ((corsHandle c req).2 = Outcome.breakChain ↔
      (req.Method = "OPTIONS" ∧ req.requestMethod ≠ "")) := by
  by_cases hp : req.Method = "OPTIONS" ∧ req.requestMethod ≠ ""
  · rw [corsHandle_preflight_eq c req ho hadm hp.1 hp.2]
    simpa using hp
  · rw [corsHandle_simple_eq c req ho hadm hp]
    simp [hp]

/-- C7 witness: a bare OPTIONS request (empty probe) against the wildcard
policy is not treated as a preflight: the chain continues. -/
theorem preflight_classification_witness :
    ((corsHandle cfgStrictWild
        { Method := "OPTIONS", origin := "http://a.com",
          requestMethod := "", requestHeaders := "" }).2 = Outcome.breakChain ↔
      (("OPTIONS" : String) = "OPTIONS" ∧ ("" : String) ≠ "")) :=
  preflight_classification cfgStrictWild
    { Method := "OPTIONS", origin := "http://a.com",
      requestMethod := "", requestHeaders := "" } (by decide) (Or.inl rfl)

/-- C9: construction fails (panics) iff the configured origin rule is
empty; any non-empty origin rule yields the middleware handler. -/
theorem Cors_construction_iff (c : Config) :
    (Cors c = none ↔ c.Origins = "") ∧
    (c.Origins ≠ "" → Cors c = some (corsHandle c)) := by
  by_cases h : c.Origins = "" <;> simp [Cors, h]

/-- C9 witness: the single-origin configuration constructs a handler. -/
theorem Cors_construction_iff_witness :
    cfgSingle.Origins ≠ "" ∧ Cors cfgSingle = some (corsHandle cfgSingle) :=
  ⟨by decide, (Cors_construction_iff cfgSingle).2 (by decide)⟩

/-- The response produced by a preflight, fully evaluated: on successful
validation the allow headers (and conditionally max-age) follow the Vary
pair; otherwise only the Vary pair remains. -/
lemma handlePreflight_headers (c : Config) (m hv : String) :
    (handlePreflight (Response.mk [("Vary", OriginKey)]) c m hv).1 =
      (if validateRequestMethod m c = true ∧ validateRequestHeaders hv c = true then
        Response.mk
          ([("Vary", OriginKey), (AllowMethodsKey, c.Methods),
            (AllowHeadersKey, c.RequestHeaders)] ++
           (if c.maxAgeStr ≠ "0" then [(MaxAgeKey, c.maxAgeStr)] else []))
      else Response.mk [("Vary", OriginKey)]) := by
  cases hvm : validateRequestMethod m c <;> cases hvh : validateRequestHeaders hv c <;>
    by_cases hma : c.maxAgeStr = "0" <;>
      simp [handlePreflight, hvm, hvh, hma, Response.set] <;> rfl

/-- The response produced by the simple-request step, fully evaluated. -/
lemma handleRequest_headers (c : Config) :
    (handleRequest (Response.mk [("Vary", OriginKey)]) c).1 =
      (if c.ExposedHeaders ≠ "" then
        Response.mk [("Vary", OriginKey), (ExposeHeadersKey, c.ExposedHeaders)]
      else Response.mk [("Vary", OriginKey)]) := by
  by_cases he : c.ExposedHeaders = "" <;> simp [handleRequest, he, Response.set] <;> rfl

/-- A preflight whose Access-Control-Request-Method fails strict
validation even though its origin matches the (non-wildcard) policy. -/
def reqBadPreflight : Request :=
  { Method := "OPTIONS", origin := "http://a.com",
    requestMethod := "DELETE", requestHeaders := "" }

/-- C1 counterexample: with the non-wildcard policy, a request whose
Origin does equal a configured token is nevertheless terminated with no
header beyond Vary: Origin (a preflight that fails validation), so
"rejected iff the origin is not configured" is false as stated. -/
theorem origin_reject_iff_counterexample :
    cfgSingle.Origins ≠ "*" ∧
    reqBadPreflight.origin ≠ "" ∧
    matchOrigin reqBadPreflight.origin cfgSingle = true ∧
    (corsHandle cfgSingle reqBadPreflight).2 = Outcome.breakChain ∧
    (corsHandle cfgSingle reqBadPreflight).1.headers = [("Vary", OriginKey)] := by
  decide

/-- C1 (amended): for every non-preflight-shaped request with a non-empty
Origin, the request is rejected (chain terminated with no header beyond
Vary: Origin) iff the policy is not the wildcard and the Origin is not
byte-for-byte equal to a configured origin token; in particular the
wildcard policy admits every origin. -/
theorem origin_reject_iff_amended (c : Config) (req : Request) (ho : req.origin ≠ "")
    (hnp : ¬(req.Method = "OPTIONS" ∧ req.requestMethod ≠ "")) :
    (((corsHandle c req).2 = Outcome.breakChain ∧
      (corsHandle c req).1.headers = [("Vary", OriginKey)]) ↔
     (c.Origins ≠ "*" ∧ matchOrigin req.origin c = false)) := by
  constructor
  · intro h
    by_cases hadm : c.Origins = "*" ∨ matchOrigin req.origin c = true
    · rw [corsHandle_simple_eq c req ho hadm hnp] at h
      simp at h
    · push_neg at hadm
      exact ⟨hadm.1, by simpa using hadm.2⟩
  · intro h
    rw [corsHandle_reject_eq c req ho h.1 h.2]
    exact ⟨rfl, rfl⟩

/-- A cross-origin GET from an origin the single-origin policy does not
list. -/
def reqGetB : Request :=
  { Method := "GET", origin := "http://b.com", requestMethod := "", requestHeaders := "" }

/-- C1 witness: the unlisted origin is rejected with only Vary set. -/
theorem origin_reject_iff_amended_witness :
    (corsHandle cfgSingle reqGetB).2 = Outcome.breakChain ∧
    (corsHandle cfgSingle reqGetB).1.headers = [("Vary", OriginKey)] :=
  (origin_reject_iff_amended cfgSingle reqGetB (by decide) (by decide)).2
    ⟨by decide, by decide⟩

/-- C2: an admitted preflight always terminates the chain; successful
validation sets exactly the allow-methods and allow-headers strings plus
(only when the prepared max-age string is not "0") the max-age header;
failed validation sets nothing further; and no preflight ever sets
Access-Control-Allow-Origin or Access-Control-Allow-Credentials. -/
theorem preflight_terminates_and_headers (c : Config) (req : Request)
    (ho : req.origin ≠ "")
    (hadm : c.Origins = "*" ∨ matchOrigin req.origin c = true)
    (hm : req.Method = "OPTIONS") (hrm : req.requestMethod ≠ "") :
    (corsHandle c req).2 = Outcome.breakChain ∧
    (validateRequestMethod req.requestMethod c = true →
      validateRequestHeaders req.requestHeaders c = true →
      (corsHandle c req).1.headers =
        [("Vary", OriginKey), (AllowMethodsKey, c.Methods),
         (AllowHeadersKey, c.RequestHeaders)] ++
        (if c.maxAgeStr ≠ "0" then [(MaxAgeKey, c.maxAgeStr)] else [])) ∧
    ((validateRequestMethod req.requestMethod c = false ∨
      validateRequestHeaders req.requestHeaders c = false) →
      (corsHandle c req).1.headers = [("Vary", OriginKey)]) ∧
    Response.get (corsHandle c req).1 AllowOriginKey = [] ∧
    Response.get (corsHandle c req).1 AllowCredentialsKey = [] := by
  rw [corsHandle_preflight_eq c req ho hadm hm hrm, handlePreflight_headers]
  refine ⟨rfl, ?_, ?_, ?_, ?_⟩
  · intro hvm hvh
    rw [if_pos ⟨hvm, hvh⟩]
  · intro hbad
    rw [if_neg]
    rintro ⟨hvm, hvh⟩
    rcases hbad with hbad | hbad
    · rw [hvm] at hbad; cases hbad
    · rw [hvh] at hbad; cases hbad
  · split
    · split <;> rfl
    · rfl
  · split
    · split <;> rfl
    · rfl

/-- A successful strict preflight against the wildcard policy. -/
def reqGoodPreflight : Request :=
  { Method := "OPTIONS", origin := "http://a.com",
    requestMethod := "GET", requestHeaders := "content-type" }

/-- C2 witness: the successful preflight terminates with exactly the
allow headers (max-age suppressed because it is "0"). -/
theorem preflight_terminates_and_headers_witness :
    (corsHandle cfgStrictWild reqGoodPreflight).2 = Outcome.breakChain ∧
    (corsHandle cfgStrictWild reqGoodPreflight).1.headers =
      [("Vary", OriginKey), (AllowMethodsKey, cfgStrictWild.Methods),
       (AllowHeadersKey, cfgStrictWild.RequestHeaders)] ++
      (if cfgStrictWild.maxAgeStr ≠ "0" then
        [(MaxAgeKey, cfgStrictWild.maxAgeStr)] else []) :=
  ⟨(preflight_terminates_and_headers cfgStrictWild reqGoodPreflight
      (by decide) (Or.inl rfl) rfl (by decide)).1,
   (preflight_terminates_and_headers cfgStrictWild reqGoodPreflight
      (by decide) (Or.inl rfl) rfl (by decide)).2.1 (by decide) (by decide)⟩

/-- C4: an admitted non-preflight request continues; with credentials
enabled the credentials string is set and the literal Origin is echoed
(never "*", even under the wildcard policy); without credentials the
wildcard policy sets "*" and otherwise the literal Origin is echoed. -/
theorem simple_request_headers (c : Config) (req : Request) (ho : req.origin ≠ "")
    (hadm : c.Origins = "*" ∨ matchOrigin req.origin c = true)
    (hnp : ¬(req.Method = "OPTIONS" ∧ req.requestMethod ≠ "")) :
    (corsHandle c req).2 = Outcome.next ∧
    (c.Credentials = true →
      Response.get (corsHandle c req).1 AllowCredentialsKey = [c.credentialsStr] ∧
      Response.get (corsHandle c req).1 AllowOriginKey = [req.origin]) ∧
    (c.Credentials = false → c.Origins = "*" →
      Response.get (corsHandle c req).1 AllowOriginKey = ["*"]) ∧
    (c.Credentials = false → c.Origins ≠ "*" →
      Response.get (corsHandle c req).1 AllowOriginKey = [req.origin]) := by
  rw [corsHandle_simple_eq c req ho hadm hnp, handleRequest_headers]
  refine ⟨rfl, ?_, ?_, ?_⟩
  · intro hcred
    rw [if_pos hcred]
    constructor <;> · split <;> rfl
  · intro hcred hw
    rw [if_neg (by simp [hcred]), if_pos hw]
    split <;> rfl
  · intro hcred hw
    rw [if_neg (by simp [hcred]), if_neg hw]
    split <;> rfl

/-- The wildcard policy with credentials enabled. -/
def cfgCredWild : Config :=
  { ValidateHeaders := false, Origins := "*", RequestHeaders := "Origin",
    ExposedHeaders := "", Methods := "GET", MaxAge := 60, Credentials := true }

/-- C4 witness: under the wildcard policy, credentials enabled echoes the
literal origin while credentials disabled emits "*". -/
theorem simple_request_headers_witness :
    Response.get (corsHandle cfgCredWild reqGet).1 AllowOriginKey = [reqGet.origin] ∧
    Response.get (corsHandle cfgStrictWild reqGet).1 AllowOriginKey = ["*"] :=
  ⟨((simple_request_headers cfgCredWild reqGet (by decide) (Or.inl rfl)
      (by decide)).2.1 rfl).2,
   (simple_request_headers cfgStrictWild reqGet (by decide) (Or.inl rfl)
      (by decide)).2.2.1 rfl rfl⟩

/-- C10: in strict mode an empty probed header list splits into the
single empty token, so it validates iff the prepared header slice itself
contains the empty string; when it does not, an admitted preflight with
an empty probe emits no allow header at all. -/
theorem empty_probe_strict_validation (c : Config) (req : Request)
    (hv : c.ValidateHeaders = true) (hempty : req.requestHeaders = "") :
    stringsSplitComma "" = [""] ∧
    (validateRequestHeaders "" c = true ↔ "" ∈ c.requestHeaders) ∧
    (req.origin ≠ "" → (c.Origins = "*" ∨ matchOrigin req.origin c = true) →
      req.Method = "OPTIONS" → req.requestMethod ≠ "" →
      "" ∉ c.requestHeaders →
      (corsHandle c req).1.headers = [("Vary", OriginKey)]) := by
  have hiff : validateRequestHeaders "" c = true ↔ "" ∈ c.requestHeaders := by
    simp [validateRequestHeaders, hv, stringsSplitComma, splitComma,
      stringsTrimWS, stringsToLower, List.any_eq_true]
  refine ⟨rfl, hiff, ?_⟩
  intro ho hadm hm hrm hnot
  have hvh : validateRequestHeaders req.requestHeaders c = false := by
    rw [hempty]
    cases hval : validateRequestHeaders "" c
    · rfl
    · exact absurd (hiff.mp hval) hnot
  rw [corsHandle_preflight_eq c req ho hadm hm hrm, handlePreflight_headers,
    if_neg]
  rintro ⟨-, hvh'⟩
  rw [hvh] at hvh'
  cases hvh'

/-- An admitted preflight probing no headers. -/
def reqEmptyProbe : Request :=
  { Method := "OPTIONS", origin := "http://a.com",
    requestMethod := "GET", requestHeaders := "" }

/-- C10 witness: against a strict policy whose header slice has no empty
token, the empty-probe preflight yields only Vary: Origin. -/
theorem empty_probe_strict_validation_witness :
    (validateRequestHeaders "" cfgSingle = true ↔ "" ∈ cfgSingle.requestHeaders) ∧
    (corsHandle cfgSingle reqEmptyProbe).1.headers = [("Vary", OriginKey)] :=
  ⟨(empty_probe_strict_validation cfgSingle reqEmptyProbe rfl rfl).2.1,
   (empty_probe_strict_validation cfgSingle reqEmptyProbe rfl rfl).2.2
     (by decide) (Or.inr (by decide)) rfl (by decide) (by decide)⟩

/-! ### C8: the configuration split -/

/-- Intercalation with the separator ", " (statement-side companion of
the split: it rebuilds the configuration string from its tokens). -/
def joinCS : List (List Char) → List Char
  | [] => []
  | [t] => t
  | t :: t2 :: ts => t ++ ',' :: ' ' :: joinCS (t2 :: ts)

/-- A comma-free chunk is returned whole by the ", " split. -/
lemma splitCommaSpace_no_comma (t : List Char) (h : ',' ∉ t) :
    splitCommaSpace t = [t] := by
  induction t with
  | nil => rfl
  | cons c cs ih =>
    simp only [List.mem_cons, not_or] at h
    obtain ⟨h1, h2⟩ := h
    have hc : c ≠ ',' := fun e => h1 e.symm
    cases cs with
    | nil => rfl
    | cons c2 cs2 =>
      have ih' := ih (by simpa using h2)
      simp [splitCommaSpace, hc, ih']

/-- Splitting a string that starts with a comma-free chunk followed by
the separator peels off exactly that chunk. -/
lemma splitCommaSpace_append (t s : List Char) (h : ',' ∉ t) :
    splitCommaSpace (t ++ ',' :: ' ' :: s) = t :: splitCommaSpace s := by
  induction t with
  | nil => simp [splitCommaSpace]
  | cons c cs ih =>
    simp only [List.mem_cons, not_or] at h
    obtain ⟨h1, h2⟩ := h
    have hc : c ≠ ',' := fun e => h1 e.symm
    have ih' := ih (by simpa using h2)
    cases cs with
    | nil =>
      simp only [List.nil_append] at ih'
      simp [splitCommaSpace, hc, ih']
    | cons c2 cs2 =>
      simp only [List.cons_append] at ih' ⊢
      simp [splitCommaSpace, hc, ih']

/-- The ", " split is a left inverse of ", " intercalation on lists of
comma-free tokens: tokens and their order are recovered exactly. -/
lemma splitCommaSpace_joinCS (l : List (List Char)) (hl : l ≠ [])
    (h : ∀ t ∈ l, ',' ∉ t) : splitCommaSpace (joinCS l) = l := by
  induction l with
  | nil => exact absurd rfl hl
  | cons t ts ih =>
    cases ts with
    | nil =>
      simpa [joinCS] using splitCommaSpace_no_comma t (h t (List.mem_cons_self t []))
    | cons t2 ts2 =>
      have hjoin : joinCS (t :: t2 :: ts2) = t ++ ',' :: ' ' :: joinCS (t2 :: ts2) := rfl
      rw [hjoin, splitCommaSpace_append t _ (h t (List.mem_cons_self t _)),
        ih (by simp) (fun u hu => h u (List.mem_cons_of_mem t hu))]

/-- C8 (amended): configuration normalization splits the origins, methods
and request-headers strings on the separator ", " into the ordered
sequence of the literal substrings between separator occurrences — the
configured order and the tokens themselves are recovered exactly when the
string is the ", "-intercalation of comma-free tokens — but the tokens
are not additionally trimmed of whitespace. -/
theorem prepare_split_roundtrip (c : Config) (l : List String) (hl : l ≠ [])
    (htok : ∀ t ∈ l, ',' ∉ t.data) :
    (c.Origins.data = joinCS (l.map String.data) → c.origins = l) ∧
    (c.Methods.data = joinCS (l.map String.data) → c.methods = l) ∧
    (c.RequestHeaders.data = joinCS (l.map String.data) →
      c.requestHeaders = l.map stringsToLower) := by
  have key : ∀ str : String, str.data = joinCS (l.map String.data) →
      stringsSplitCommaSpace str = l := by
    intro str hstr
    unfold stringsSplitCommaSpace
    rw [hstr, splitCommaSpace_joinCS (l.map String.data) (by simpa using hl)]
    · rw [List.map_map]
      exact List.map_id'' (fun s => rfl) l
    · intro t ht
      obtain ⟨u, hu, rfl⟩ := List.mem_map.mp ht
      exact htok u hu
  exact ⟨fun h => key _ h, fun h => key _ h,
    fun h => by unfold Config.requestHeaders; rw [key _ h]⟩

/-- A two-origin configuration written with the exact ", " separator. -/
def cfgTwoOrigins : Config :=
  { ValidateHeaders := false, Origins := "http://a.com, http://b.com",
    RequestHeaders := "Origin", ExposedHeaders := "", Methods := "GET",
    MaxAge := 0, Credentials := false }

/-- C8 witness: the two configured origins are recovered in order. -/
theorem prepare_split_roundtrip_witness :
    cfgTwoOrigins.origins = ["http://a.com", "http://b.com"] :=
  (prepare_split_roundtrip cfgTwoOrigins ["http://a.com", "http://b.com"]
    (by decide) (by decide)).1 (by decide)

/-- A configuration whose origins string deviates from the exact ", "
separator shape (two spaces after the comma). -/
def cfgStrayWhitespace : Config :=
  { ValidateHeaders := false, Origins := "a,  b", RequestHeaders := "Origin",
    ExposedHeaders := "", Methods := "GET", MaxAge := 0, Credentials := false }

/-- C8 counterexample: splitting "a,  b" on ", " yields the token " b",
which carries surrounding whitespace, so "each resulting token carries no
surrounding whitespace" is false as stated. -/
theorem prepare_split_trimmed_counterexample :
    cfgStrayWhitespace.origins = ["a", " b"] ∧
    stringsTrimWS " b" ≠ " b" := by
  decide

end Cors
